import Mathlib

/-!
Verification development for the GetPointCord_Tools repository
(`GetPointCord.py`, `Batch_GetPointCord.py`, `Getlist.py`).

The Python sources are shallowly embedded below: pure functions become Lean
functions over lists, rationals (for Python floats read from JSON / CLI) and
integers (Python ints); `sys.exit` failure paths become `Except` errors or
dedicated result constructors; the seeded global pseudo-random generator of
the `random` module is modelled as an explicit state value threaded through
the shuffle.
-/

/-! ### Model of the seeded global PRNG (`random.seed` / `random.shuffle`)

CPython's `random` module keeps a global Mersenne-Twister state; `random.seed`
replaces that state by a deterministic function of the seed, and
`random.shuffle` runs a Fisher-Yates loop drawing `_randbelow(i + 1)` at each
step.  We model the generator state as a natural number and the draw as a
64-bit linear-congruential step; every theorem below depends only on the
generator being a deterministic function of the seed that returns an index
below its bound, properties the Mersenne Twister shares. -/

/-- The modelled state of Python's global random generator. -/
abbrev RngState := Nat

/-- One 64-bit linear-congruential step, standing in for the Mersenne-Twister
state transition. -/
def lcgNext (s : RngState) : RngState :=
  (6364136223846793005 * s + 1442695040888963407) % (2 ^ 64)

/-- Model of `random.seed(seed)`: the resulting generator state is a function
of the seed alone. -/
def pySeed (seed : Nat) : RngState := lcgNext seed

/-- Model of `random._randbelow(n)`: a draw below `n` plus the new state. -/
def randbelow (s : RngState) (n : Nat) : Nat × RngState :=
  let s1 := lcgNext s
  (s1 % n, s1)

/-- `x[i], x[j] = x[j], x[i]` on a list, a no-op when an index is out of
bounds (the source never goes out of bounds). -/
def listSwap (l : List α) (i j : Nat) : List α :=
  if h : i < l.length ∧ j < l.length then
    (l.set i (l.get ⟨j, h.2⟩)).set j (l.get ⟨i, h.1⟩)
  else l

/-- The Fisher-Yates loop of CPython's `random.shuffle`:
`for i in reversed(range(1, len(x))): j = _randbelow(i+1); swap x[i] x[j]`.
The `Nat` argument is the current loop index `i`. -/
def shuffleGo : List α → RngState → Nat → List α × RngState
  | l, s, 0 => (l, s)
  | l, s, i + 1 =>
    shuffleGo (listSwap l (i + 1) (randbelow s (i + 2)).1) (randbelow s (i + 2)).2 i

/-- Model of `random.shuffle(x)` (in-place shuffle, returning the new list and
generator state). -/
def pyShuffle (l : List α) (s : RngState) : List α × RngState :=
  shuffleGo l s (l.length - 1)

/-! ### `Getlist.py` — dataset partitioner -/

/-- Python `int()` applied to a (rational-valued) float: truncation toward
zero. -/
def pyInt (q : ℚ) : ℤ := if 0 ≤ q then ⌊q⌋ else ⌈q⌉

/-- Python `str.lower()` (character-wise lowering; the repository only uses
ASCII labels, extensions and the sentinel `all`). -/
def pyLower (s : String) : String := (s.toList.map Char.toLower).asString

/-- The fatal failure modes of `Getlist.py` (each a `sys.exit(1)` site). -/
inductive GetlistError where
  | invalidRatio
  | insufficientSamples
  | noValidPairs
deriving DecidableEq

/-- Lines 150-153 of `Getlist.py`: if the three counts do not sum to `total`,
force the test count to `total - train_count - val_count`. -/
def reconcile (total t v c : ℤ) : ℤ × ℤ × ℤ :=
  if t + v + c ≠ total then (t, v, total - t - v) else (t, v, c)

/-- Lines 123-153 of `Getlist.py`: the 3-way split-size computation, given
`total = len(pairs_shuffled)`.  Returns `(train_count, val_count, test_count)`
or the `InsufficientSamples` failure. -/
def splitCounts (total : ℤ) (train_ratio val_ratio : ℚ) :
    Except GetlistError (ℤ × ℤ × ℤ) :=
  let train_count := max 1 (pyInt ((total : ℚ) * train_ratio))
  let val_count := max 1 (pyInt ((total : ℚ) * val_ratio))
  let remaining := total - train_count - val_count
  if remaining ≤ 0 then
    if train_count > 1 then
      Except.ok (reconcile total (train_count - 1) val_count 1)
    else if val_count > 1 then
      Except.ok (reconcile total train_count (val_count - 1) 1)
    else
      Except.error GetlistError.insufficientSamples
  else
    Except.ok (reconcile total train_count val_count remaining)

/-- `split_train_val_test` of `Getlist.py` (lines 101-169).  `g` is the
incoming state of the global random generator; the function discards it via
`random.seed(seed)` before shuffling. -/
def split_train_val_test (g : RngState) (pairs : List α)
    (train_ratio val_ratio test_ratio : ℚ) (seed : Nat) :
    Except GetlistError (List α × List α × List α) :=
  if ¬ (0 < train_ratio ∧ train_ratio < 1) then Except.error GetlistError.invalidRatio
  else if ¬ (0 < val_ratio ∧ val_ratio < 1) then Except.error GetlistError.invalidRatio
  else if ¬ (0 < test_ratio ∧ test_ratio < 1) then Except.error GetlistError.invalidRatio
  else if |train_ratio + val_ratio + test_ratio - 1| > 1 / 1000 then
    Except.error GetlistError.invalidRatio
  else
    let shuffled := (pyShuffle pairs (pySeed seed)).1
    let total : ℤ := shuffled.length
    match splitCounts total train_ratio val_ratio with
    | Except.error e => Except.error e
    | Except.ok (train_count, val_count, _) =>
      Except.ok (shuffled.take train_count.toNat,
                 (shuffled.drop train_count.toNat).take val_count.toNat,
                 shuffled.drop (train_count + val_count).toNat)

/-- The split-size rule exactly as the specification words it (§4.2,
steps 1-4): `floor` of `total * ratio` forced to at least 1 for train and
val, borrow one unit preferring train when the candidate test count is not
positive, fail when neither count exceeds 1, and always recompute the final
test count as `total - train_count - val_count`. -/
def specSplitSizes (total : ℤ) (train_ratio val_ratio : ℚ) :
    Except GetlistError (ℤ × ℤ × ℤ) :=
  let t0 := max 1 ⌊(total : ℚ) * train_ratio⌋
  let v0 := max 1 ⌊(total : ℚ) * val_ratio⌋
  if total - t0 - v0 ≤ 0 then
    if 1 < t0 then Except.ok (t0 - 1, v0, total - (t0 - 1) - v0)
    else if 1 < v0 then Except.ok (t0, v0 - 1, total - t0 - (v0 - 1))
    else Except.error GetlistError.insufficientSamples
  else Except.ok (t0, v0, total - t0 - v0)

/-- Modelled from the spec: `Getlist.py` contains only the 3-way split; the
2-way variant is absent from the sources and is described by spec §4.2
step 5: the two ratios are `(train_ratio, 1 - train_ratio)`,
`train_count = clamp(floor(total * train_ratio), 1, total - 1)`, and the
remainder of the seeded shuffle goes to the second split. -/
def splitTwoWay (g : RngState) (pairs : List α) (train_ratio : ℚ) (seed : Nat) :
    List α × List α :=
  let shuffled := (pyShuffle pairs (pySeed seed)).1
  let total : ℤ := shuffled.length
  let train_count := max 1 (min ⌊(total : ℚ) * train_ratio⌋ (total - 1))
  (shuffled.take train_count.toNat, shuffled.drop train_count.toNat)

/-- `IMAGE_EXTENSIONS` of `Getlist.py`. -/
def IMAGE_EXTENSIONS : List String := [".jpg", ".jpeg", ".png", ".bmp", ".tiff", ".tif"]

/-- Position of the last `'.'` of a filename, if any (`str.rfind('.')`). -/
def lastDotPos (name : String) : Option Nat :=
  let cs := name.toList
  let r := cs.reverse.indexOf '.'
  if r < cs.length then some (cs.length - 1 - r) else none

/-- `pathlib.PurePath.suffix`: the extension from the last dot, empty unless
the dot is an inner character. -/
def pathSuffix (name : String) : String :=
  match lastDotPos name with
  | none => ""
  | some i => if 0 < i ∧ i < name.length - 1 then ((name.toList).drop i).asString else ""

/-- `pathlib.PurePath.stem`: the filename without its suffix. -/
def pathStem (name : String) : String :=
  match lastDotPos name with
  | none => name
  | some i => if 0 < i ∧ i < name.length - 1 then ((name.toList).take i).asString else name

/-- `is_image_file` of `Getlist.py`: a regular file whose lower-cased suffix
is a supported image extension.  The filesystem's notion of "regular file" is
supplied as the list `fileNames`. -/
def is_image_file (fileNames : List String) (name : String) : Bool :=
  fileNames.contains name && IMAGE_EXTENSIONS.contains (pyLower (pathSuffix name))

/-- `collect_pairs` of `Getlist.py` (lines 43-98) over an abstract directory
listing: iterate the image directory in sorted (`sorted(...)`) order, keep
image files whose `<stem>.txt` exists in the txt directory (`txtFiles` lists
that directory), pair each with its txt file, and fail with `NoValidPairs`
when nothing matched. -/
def collect_pairs (imgListing fileNames txtFiles : List String) :
    Except GetlistError (List (String × String)) :=
  let pairs := ((imgListing.insertionSort (fun a b => a ≤ b)).filter
      (fun n => is_image_file fileNames n && txtFiles.contains (pathStem n ++ ".txt"))).map
      (fun n => (n, pathStem n ++ ".txt"))
  if pairs.isEmpty then Except.error GetlistError.noValidPairs else Except.ok pairs

/-- The two relative paths `build_subset` records for one sample:
`<subset>/<stem>/<image name>` and `<subset>/<stem>/<txt name>`. -/
def manifestEntry (subset : String) (p : String × String) : String × String :=
  (subset ++ "/" ++ pathStem p.1 ++ "/" ++ p.1,
   subset ++ "/" ++ pathStem p.1 ++ "/" ++ p.2)

/-- The relative-path pairs `build_subset` returns for a subset. -/
def build_subset_list (subset : String) (pairs : List (String × String)) :
    List (String × String) :=
  pairs.map (manifestEntry subset)

/-- The byte content of the `<subset>.list` manifest written by
`build_subset`: one `"<img> <txt>\n"` line per pair. -/
def manifestFile (subset : String) (pairs : List (String × String)) : String :=
  String.join ((build_subset_list subset pairs).map (fun q => q.1 ++ " " ++ q.2 ++ "\n"))

/-- `main` of `Getlist.py` after argument parsing: collect pairs, split with
the fixed seed 42, and render the three manifests. -/
def getlistMain (g : RngState) (imgListing fileNames txtFiles : List String)
    (train_ratio val_ratio test_ratio : ℚ) :
    Except GetlistError (String × String × String) :=
  match collect_pairs imgListing fileNames txtFiles with
  | Except.error e => Except.error e
  | Except.ok pairs =>
    match split_train_val_test g pairs train_ratio val_ratio test_ratio 42 with
    | Except.error e => Except.error e
    | Except.ok (t, v, s) =>
      Except.ok (manifestFile "train" t, manifestFile "val" v, manifestFile "test" s)

/-! ### `GetPointCord.py` — annotation extractor -/

/-- One entry of the `shapes` array of an annotation document
(`shape.get('label', '')`, `shape.get('shape_type', '')`,
`shape.get('points', [])`; each point is an `[x, y]` pair). -/
structure Shape where
  label : String
  shape_type : String
  points : List (ℚ × ℚ)

/-- The label filter of `extract_target_points`: line 62 of
`GetPointCord.py` skips a shape iff `target_labels is not None and
label not in target_labels`. -/
def labelExcluded (target_labels : Option (List String)) (label : String) : Bool :=
  match target_labels with
  | none => false
  | some ls => ! ls.contains label

/-- The extraction loop of `extract_target_points` (lines 50-74 of
`GetPointCord.py`) over a parsed document's `shapes` list: keep `point`
shapes passing the label filter, skip shapes with an empty `points` list,
and take `points[0]` of each kept shape, in document order. -/
def extract_target_points (shapes : List Shape) (target_labels : Option (List String)) :
    List (ℚ × ℚ) :=
  shapes.filterMap (fun shape =>
    if shape.shape_type ≠ "point" then none
    else if labelExcluded target_labels shape.label then none
    else shape.points.head?)

/-- The extractor contract exactly as the specification words it (§4.1):
filter the shapes to those with `shape_type == "point"` whose label passes
the filter, then take the first point of each, skipping empty `points`. -/
def specExtract (shapes : List Shape) (target_labels : Option (List String)) :
    List (ℚ × ℚ) :=
  (shapes.filter (fun s => s.shape_type == "point" &&
      match target_labels with
      | none => true
      | some ls => ls.contains s.label)).filterMap (fun s => s.points.head?)

/-- One output line of `save_to_txt`: `f"{int(x)} {int(y)}\n"`. -/
def coordLine (c : ℚ × ℚ) : String :=
  toString (pyInt c.1) ++ " " ++ toString (pyInt c.2) ++ "\n"

/-- `save_to_txt` of `GetPointCord.py` (lines 77-95): the byte content of the
output file, built by successively writing one line per coordinate. -/
def save_to_txt (coordinates : List (ℚ × ℚ)) : String :=
  coordinates.foldl (fun acc c => acc ++ coordLine c) ""

/-- The label-argument logic shared by `parse_args` of `GetPointCord.py`
(lines 120-132) and of `Batch_GetPointCord.py` (lines 144-153): no label
arguments disable filtering; a single argument equal to `"all"` after
lower-casing disables filtering; otherwise the arguments are the literal
label list. -/
def parseTargetLabels (labels : List String) : Option (List String) :=
  match labels with
  | [] => none
  | [l] => if pyLower l = "all" then none else some [l]
  | _ => some labels

/-! ### `Batch_GetPointCord.py` — batch driver -/

/-- The disk state of one JSON path handed to `extract_target_points`:
missing, unparsable, raising an ordinary exception while its shapes are
processed (e.g. a point entry that is not an `[x, y]` pair), or parsed. -/
inductive JsonInput where
  | missing
  | malformed
  | raisesOther
  | parsed (shapes : List Shape)

/-- What a call of `extract_target_points(json_file, target_labels)` does at
runtime.  Lines 40-48 of `GetPointCord.py` catch `FileNotFoundError` and
`json.JSONDecodeError` and call `sys.exit(1)`, which raises `SystemExit` —
`SystemExit` derives from `BaseException`, not `Exception`. -/
inductive ExtractOutcome where
  | sysExit
  | raised
  | extracted (coordinates : List (ℚ × ℚ))

/-- Run `extract_target_points` on one file. -/
def extract_run (f : JsonInput) (target_labels : Option (List String)) : ExtractOutcome :=
  match f with
  | JsonInput.missing => ExtractOutcome.sysExit
  | JsonInput.malformed => ExtractOutcome.sysExit
  | JsonInput.raisesOther => ExtractOutcome.raised
  | JsonInput.parsed shapes => ExtractOutcome.extracted (extract_target_points shapes target_labels)

/-- The success / skip / error counters of `process_directory`. -/
structure BatchTally where
  success : Nat
  skip : Nat
  error : Nat
deriving DecidableEq

/-- Outcome of a batch run: `noFiles` models the early `sys.exit(0)` when the
directory holds no JSON files; `aborted` models an uncaught `SystemExit`
escaping the loop (no final tally is printed); `finished` carries the tally
printed at the end. -/
inductive BatchResult where
  | noFiles
  | aborted (t : BatchTally)
  | finished (t : BatchTally)
deriving DecidableEq

/-- The per-file loop of `process_directory` (lines 84-106 of
`Batch_GetPointCord.py`).  The `try ... except Exception` around each file
catches ordinary exceptions (incrementing the error counter) but not the
`SystemExit` raised inside `extract_target_points`, which aborts the whole
batch. -/
def processGo (target_labels : Option (List String)) :
    List (String × JsonInput) → BatchTally → BatchResult
  | [], t => BatchResult.finished t
  | (_, f) :: rest, t =>
    match extract_run f target_labels with
    | ExtractOutcome.sysExit => BatchResult.aborted t
    | ExtractOutcome.raised =>
      processGo target_labels rest { t with error := t.error + 1 }
    | ExtractOutcome.extracted coords =>
      if coords.isEmpty then processGo target_labels rest { t with skip := t.skip + 1 }
      else processGo target_labels rest { t with success := t.success + 1 }

/-- `process_directory` of `Batch_GetPointCord.py` over the JSON files found
in the directory. -/
def process_directory (files : List (String × JsonInput))
    (target_labels : Option (List String)) : BatchResult :=
  if files.isEmpty then BatchResult.noFiles
  else processGo target_labels files ⟨0, 0, 0⟩

/-! ## Theorems -/

/-! ### Shuffle permutation facts -/

theorem randbelow_lt (s : RngState) (n : Nat) (hn : 0 < n) :
    (randbelow s n).1 < n := Nat.mod_lt _ hn

theorem getElem_cons_set_perm :
    ∀ (t : List α) (k : Nat) (hk : k < t.length) (a : α),
      List.Perm (t.get ⟨k, hk⟩ :: t.set k a) (a :: t)
  | x :: s, 0, _, a => List.Perm.swap a x s
  | x :: s, k + 1, hk, a => by
    have hk' : k < s.length := Nat.lt_of_succ_lt_succ hk
    have ih := getElem_cons_set_perm s k hk' a
    show List.Perm (s.get ⟨k, hk'⟩ :: x :: s.set k a) (a :: x :: s)
    exact ((List.Perm.swap x (s.get ⟨k, hk'⟩) (s.set k a)).trans (ih.cons x)).trans
      (List.Perm.swap a x s)

theorem set_set_perm :
    ∀ (l : List α) (i j : Nat) (hi : i < l.length) (hj : j < l.length),
      List.Perm ((l.set i (l.get ⟨j, hj⟩)).set j (l.get ⟨i, hi⟩)) l
  | x :: t, 0, 0, _, _ => by simp
  | x :: t, 0, j + 1, hi, hj => by
    have hj' : j < t.length := Nat.lt_of_succ_lt_succ hj
    show List.Perm (t.get ⟨j, hj'⟩ :: t.set j x) (x :: t)
    exact getElem_cons_set_perm t j hj' x
  | x :: t, i + 1, 0, hi, hj => by
    have hi' : i < t.length := Nat.lt_of_succ_lt_succ hi
    show List.Perm (t.get ⟨i, hi'⟩ :: t.set i x) (x :: t)
    exact getElem_cons_set_perm t i hi' x
  | x :: t, i + 1, j + 1, hi, hj => by
    have hi' : i < t.length := Nat.lt_of_succ_lt_succ hi
    have hj' : j < t.length := Nat.lt_of_succ_lt_succ hj
    show List.Perm (x :: (t.set i (t.get ⟨j, hj'⟩)).set j (t.get ⟨i, hi'⟩)) (x :: t)
    exact (set_set_perm t i j hi' hj').cons x

theorem listSwap_perm (l : List α) (i j : Nat) : List.Perm (listSwap l i j) l := by
  unfold listSwap
  split
  case isTrue h => exact set_set_perm l i j h.1 h.2
  case isFalse _ => exact List.Perm.refl l

theorem listSwap_length (l : List α) (i j : Nat) :
    (listSwap l i j).length = l.length :=
  (listSwap_perm l i j).length_eq

theorem shuffleGo_perm : ∀ (f : Nat) (l : List α) (s : RngState),
    List.Perm (shuffleGo l s f).1 l
  | 0, _, _ => List.Perm.refl _
  | f + 1, l, s =>
    (shuffleGo_perm f _ _).trans (listSwap_perm l (f + 1) (randbelow s (f + 2)).1)

theorem pyShuffle_perm (l : List α) (s : RngState) : List.Perm (pyShuffle l s).1 l :=
  shuffleGo_perm _ l s

theorem pyShuffle_length (l : List α) (s : RngState) :
    (pyShuffle l s).1.length = l.length :=
  (pyShuffle_perm l s).length_eq

/-! ### Split-size computation facts -/

/-- The reconciliation step always lands on `total - t - v`, whether or not
it fires. -/
theorem reconcile_eq (total a b c : ℤ) : reconcile total a b c = (a, b, total - a - b) := by
  unfold reconcile
  split
  · rfl
  · next h =>
    have hc : c = total - a - b := by omega
    rw [hc]

theorem splitCounts_ok_inv {total t v c : ℤ} {tr vr : ℚ}
    (h : splitCounts total tr vr = Except.ok (t, v, c)) :
    1 ≤ t ∧ 1 ≤ v ∧ t + v + c = total := by
  have ht0 : 1 ≤ max 1 (pyInt ((total : ℚ) * tr)) := le_max_left _ _
  have hv0 : 1 ≤ max 1 (pyInt ((total : ℚ) * vr)) := le_max_left _ _
  simp only [splitCounts, reconcile_eq] at h
  split at h
  · split at h
    · simp only [Except.ok.injEq, Prod.mk.injEq] at h
      omega
    · split at h
      · simp only [Except.ok.injEq, Prod.mk.injEq] at h
        omega
      · simp at h
  · simp only [Except.ok.injEq, Prod.mk.injEq] at h
    omega

theorem splitCounts_ok_test_pos {total t v c : ℤ} {tr vr : ℚ}
    (htot : 1 ≤ total) (htr0 : 0 < tr) (htr1 : tr < 1) (hvr0 : 0 < vr) (hvr1 : vr < 1)
    (hsum : tr + vr ≤ 1)
    (h : splitCounts total tr vr = Except.ok (t, v, c)) : 1 ≤ c := by
  have htotQ : (0 : ℚ) < (total : ℚ) := by exact_mod_cast lt_of_lt_of_le Int.zero_lt_one htot
  have hA0 : (0 : ℚ) ≤ (total : ℚ) * tr := mul_nonneg htotQ.le htr0.le
  have hB0 : (0 : ℚ) ≤ (total : ℚ) * vr := mul_nonneg htotQ.le hvr0.le
  have hAdef : pyInt ((total : ℚ) * tr) = ⌊(total : ℚ) * tr⌋ := if_pos hA0
  have hBdef : pyInt ((total : ℚ) * vr) = ⌊(total : ℚ) * vr⌋ := if_pos hB0
  have hAlt : ⌊(total : ℚ) * tr⌋ < total := by
    have h1 : ((⌊(total : ℚ) * tr⌋ : ℤ) : ℚ) ≤ (total : ℚ) * tr := Int.floor_le _
    have h2 : (total : ℚ) * tr < (total : ℚ) := by
      have h3 := mul_lt_mul_of_pos_left htr1 htotQ
      simpa using h3
    exact_mod_cast lt_of_le_of_lt h1 h2
  have hBlt : ⌊(total : ℚ) * vr⌋ < total := by
    have h1 : ((⌊(total : ℚ) * vr⌋ : ℤ) : ℚ) ≤ (total : ℚ) * vr := Int.floor_le _
    have h2 : (total : ℚ) * vr < (total : ℚ) := by
      have h3 := mul_lt_mul_of_pos_left hvr1 htotQ
      simpa using h3
    exact_mod_cast lt_of_le_of_lt h1 h2
  have hABle : ⌊(total : ℚ) * tr⌋ + ⌊(total : ℚ) * vr⌋ ≤ total := by
    have h1 : ((⌊(total : ℚ) * tr⌋ + ⌊(total : ℚ) * vr⌋ : ℤ) : ℚ) ≤
        (total : ℚ) * tr + (total : ℚ) * vr := by
      push_cast
      exact add_le_add (Int.floor_le _) (Int.floor_le _)
    have h2 : (total : ℚ) * tr + (total : ℚ) * vr ≤ (total : ℚ) := by
      have h3 : (total : ℚ) * (tr + vr) ≤ (total : ℚ) * 1 :=
        mul_le_mul_of_nonneg_left hsum htotQ.le
      calc (total : ℚ) * tr + (total : ℚ) * vr = (total : ℚ) * (tr + vr) := by ring
        _ ≤ (total : ℚ) * 1 := h3
        _ = (total : ℚ) := mul_one _
    exact_mod_cast le_trans h1 h2
  set A := ⌊(total : ℚ) * tr⌋ with hA
  set B := ⌊(total : ℚ) * vr⌋ with hB
  simp only [splitCounts, hAdef, hBdef, reconcile_eq] at h
  rcases le_or_lt A 1 with hA1 | hA1 <;> rcases le_or_lt B 1 with hB1 | hB1
  · rw [max_eq_left hA1, max_eq_left hB1] at h
    split at h
    all_goals try split at h
    all_goals try split at h
    all_goals first
      | (simp only [Except.ok.injEq, Prod.mk.injEq] at h; omega)
      | simp at h
  · rw [max_eq_left hA1, max_eq_right hB1.le] at h
    split at h
    all_goals try split at h
    all_goals try split at h
    all_goals first
      | (simp only [Except.ok.injEq, Prod.mk.injEq] at h; omega)
      | simp at h
  · rw [max_eq_right hA1.le, max_eq_left hB1] at h
    split at h
    all_goals try split at h
    all_goals try split at h
    all_goals first
      | (simp only [Except.ok.injEq, Prod.mk.injEq] at h; omega)
      | simp at h
  · rw [max_eq_right hA1.le, max_eq_right hB1.le] at h
    split at h
    all_goals try split at h
    all_goals try split at h
    all_goals first
      | (simp only [Except.ok.injEq, Prod.mk.injEq] at h; omega)
      | simp at h

theorem splitCounts_eq_specSplitSizes (total : ℤ) (tr vr : ℚ)
    (htot : 0 ≤ total) (htr : 0 ≤ tr) (hvr : 0 ≤ vr) :
    splitCounts total tr vr = specSplitSizes total tr vr := by
  have htotQ : (0 : ℚ) ≤ (total : ℚ) := by exact_mod_cast htot
  have hA0 : (0 : ℚ) ≤ (total : ℚ) * tr := mul_nonneg htotQ htr
  have hB0 : (0 : ℚ) ≤ (total : ℚ) * vr := mul_nonneg htotQ hvr
  simp only [splitCounts, specSplitSizes, pyInt, if_pos hA0, if_pos hB0, reconcile_eq]

/-- Evaluation of `split_train_val_test` once the ratio validation passes. -/
theorem split_train_val_test_valid {α : Type} (g : RngState) (pairs : List α)
    (tr vr te : ℚ) (seed : Nat)
    (h1 : 0 < tr ∧ tr < 1) (h2 : 0 < vr ∧ vr < 1) (h3 : 0 < te ∧ te < 1)
    (h4 : ¬ (|tr + vr + te - 1| > 1 / 1000)) :
    split_train_val_test g pairs tr vr te seed =
      match splitCounts ((pyShuffle pairs (pySeed seed)).1.length : ℤ) tr vr with
      | Except.error e => Except.error e
      | Except.ok (tc, vc, _) =>
        Except.ok ((pyShuffle pairs (pySeed seed)).1.take tc.toNat,
                   ((pyShuffle pairs (pySeed seed)).1.drop tc.toNat).take vc.toNat,
                   (pyShuffle pairs (pySeed seed)).1.drop (tc + vc).toNat) := by
  simp only [split_train_val_test, if_neg (not_not_intro h1), if_neg (not_not_intro h2),
    if_neg (not_not_intro h3), if_neg h4]

/-- `splitCounts` at `total = 2` with ratios `(0.8, 0.1)`. -/
theorem splitCounts_two_samples :
    splitCounts 2 (8/10 : ℚ) (1/10) = Except.error GetlistError.insufficientSamples := by
  have hA : pyInt (((2 : ℤ) : ℚ) * (8/10)) = 1 := by norm_num [pyInt]
  have hB : pyInt (((2 : ℤ) : ℚ) * (1/10)) = 0 := by norm_num [pyInt]
  simp only [splitCounts, hA, hB, reconcile_eq, max_self,
    max_eq_left (by norm_num : (0:ℤ) ≤ 1)]
  rw [if_pos (by norm_num : (2:ℤ) - 1 - 1 ≤ 0), if_neg (by norm_num : ¬ ((1:ℤ) > 1)),
    if_neg (by norm_num : ¬ ((1:ℤ) > 1))]

/-- `splitCounts` at `total = 3` with ratios `(0.5, 0.25)`. -/
theorem splitCounts_three_samples :
    splitCounts 3 (1/2 : ℚ) (1/4) = Except.ok (1, 1, 1) := by
  have hA : pyInt (((3 : ℤ) : ℚ) * (1/2)) = 1 := by norm_num [pyInt]
  have hB : pyInt (((3 : ℤ) : ℚ) * (1/4)) = 0 := by norm_num [pyInt]
  simp only [splitCounts, hA, hB, reconcile_eq, max_self,
    max_eq_left (by norm_num : (0:ℤ) ≤ 1)]
  rw [if_neg (by norm_num : ¬ ((3:ℤ) - 1 - 1 ≤ 0))]
  norm_num

/-- **C1** (amended).  The 3-way split-size computation follows the spec's
floor / force-to-1 / borrow / reconcile rule; with `total = 2` and ratios
`(0.8, 0.1, 0.1)` it fails with `InsufficientSamples`; whenever it succeeds
the train and val counts are at least 1 and the three counts sum exactly to
`total`, and the test count is also at least 1 provided
`train_ratio + val_ratio ≤ 1` (which the 1e-3 sum tolerance does not force;
see the counterexample). -/
theorem split_size_computation :
    (∀ (total : ℤ) (tr vr : ℚ), 0 ≤ total → 0 ≤ tr → 0 ≤ vr →
        splitCounts total tr vr = specSplitSizes total tr vr) ∧
    (∀ (total t v c : ℤ) (tr vr : ℚ), 1 ≤ total → 0 < tr → tr < 1 → 0 < vr → vr < 1 →
        splitCounts total tr vr = Except.ok (t, v, c) →
        1 ≤ t ∧ 1 ≤ v ∧ t + v + c = total ∧ (tr + vr ≤ 1 → 1 ≤ c)) ∧
    (∀ g : RngState, split_train_val_test g [0, 1] (8/10 : ℚ) (1/10) (1/10) 42 =
        Except.error GetlistError.insufficientSamples) := by
  refine ⟨splitCounts_eq_specSplitSizes, ?_, ?_⟩
  · intro total t v c tr vr htot htr0 htr1 hvr0 hvr1 h
    obtain ⟨h1, h2, h3⟩ := splitCounts_ok_inv h
    exact ⟨h1, h2, h3, fun hsum => splitCounts_ok_test_pos htot htr0 htr1 hvr0 hvr1 hsum h⟩
  · intro g
    rw [split_train_val_test_valid g [0, 1] (8/10) (1/10) (1/10) 42
      (by norm_num) (by norm_num) (by norm_num) ?_]
    · have hl : ((pyShuffle [0, 1] (pySeed 42)).1.length : ℤ) = 2 := by
        rw [pyShuffle_length]
        rfl
      rw [hl, splitCounts_two_samples]
    · have e : (8/10 : ℚ) + 1/10 + 1/10 - 1 = 0 := by norm_num
      rw [e, abs_zero]
      norm_num

/-- **C1, counterexample.**  The ratio triple `(0.9, 0.1005, 0.0001)` passes
the validation of `split_train_val_test` (each ratio in `(0, 1)`, sum within
`1e-3` of 1), yet at `total = 2000` the split-size computation succeeds with
a **zero** test count `(1799, 201, 0)` — refuting the claim that on success
all three counts are at least 1. -/
theorem split_size_zero_test_counterexample :
    ((0:ℚ) < 9/10 ∧ (9/10:ℚ) < 1) ∧ ((0:ℚ) < 201/2000 ∧ (201/2000:ℚ) < 1) ∧
    ((0:ℚ) < 1/10000 ∧ (1/10000:ℚ) < 1) ∧
    ¬ (|(9/10 : ℚ) + 201/2000 + 1/10000 - 1| > 1/1000) ∧
    splitCounts 2000 (9/10) (201/2000) = Except.ok (1799, 201, 0) := by
  refine ⟨⟨by norm_num, by norm_num⟩, ⟨by norm_num, by norm_num⟩,
    ⟨by norm_num, by norm_num⟩, ?_, ?_⟩
  · have e : (9/10 : ℚ) + 201/2000 + 1/10000 - 1 = 3/5000 := by norm_num
    rw [e, abs_of_nonneg (by norm_num : (0:ℚ) ≤ 3/5000)]
    norm_num
  · have hA : pyInt (((2000 : ℤ) : ℚ) * (9/10)) = 1800 := by norm_num [pyInt]
    have hB : pyInt (((2000 : ℤ) : ℚ) * (201/2000)) = 201 := by norm_num [pyInt]
    simp only [splitCounts, hA, hB, reconcile_eq,
      max_eq_right (by norm_num : (1:ℤ) ≤ 1800),
      max_eq_right (by norm_num : (1:ℤ) ≤ 201)]
    rw [if_pos (by norm_num : (2000:ℤ) - 1800 - 201 ≤ 0),
      if_pos (by norm_num : (1800:ℤ) > 1)]
    norm_num

/-- Witness for `split_size_computation` at concrete inputs. -/
theorem split_size_computation_witness :
    splitCounts 3 (1/2 : ℚ) (1/4) = specSplitSizes 3 (1/2) (1/4) ∧
    ((1:ℤ) ≤ 1 ∧ (1:ℤ) ≤ 1 ∧ (1:ℤ) + 1 + 1 = 3 ∧ ((1/2 : ℚ) + 1/4 ≤ 1 → (1:ℤ) ≤ 1)) ∧
    split_train_val_test 0 [0, 1] (8/10 : ℚ) (1/10) (1/10) 42 =
      Except.error GetlistError.insufficientSamples :=
  ⟨split_size_computation.1 3 (1/2) (1/4) (by norm_num) (by norm_num) (by norm_num),
   split_size_computation.2.1 3 1 1 1 (1/2) (1/4) (by norm_num) (by norm_num)
     (by norm_num) (by norm_num) (by norm_num) splitCounts_three_samples,
   split_size_computation.2.2 0⟩

/-- **C7.**  `split_train_val_test` fails with `InvalidRatio` — before any
shuffling or splitting, whatever the pair list and generator state — when a
ratio lies outside `(0, 1)` or the ratio sum deviates from 1 by more than
`1e-3`; in particular ratios `(0.5, 0.5, 0.5)` are rejected. -/
theorem ratio_validation_rejects {α : Type} (g : RngState) (pairs : List α)
    (tr vr te : ℚ) (seed : Nat)
    (h : ¬ (0 < tr ∧ tr < 1) ∨ ¬ (0 < vr ∧ vr < 1) ∨ ¬ (0 < te ∧ te < 1) ∨
         |tr + vr + te - 1| > 1/1000) :
    split_train_val_test g pairs tr vr te seed = Except.error GetlistError.invalidRatio ∧
    split_train_val_test g pairs (1/2 : ℚ) (1/2) (1/2) seed =
      Except.error GetlistError.invalidRatio := by
  constructor
  · simp only [split_train_val_test]
    by_cases c1 : ¬ (0 < tr ∧ tr < 1)
    · rw [if_pos c1]
    · rw [if_neg c1]
      by_cases c2 : ¬ (0 < vr ∧ vr < 1)
      · rw [if_pos c2]
      · rw [if_neg c2]
        by_cases c3 : ¬ (0 < te ∧ te < 1)
        · rw [if_pos c3]
        · rw [if_neg c3]
          have c4 : |tr + vr + te - 1| > 1/1000 := by tauto
          rw [if_pos c4]
  · simp only [split_train_val_test]
    have c4 : |(1/2 : ℚ) + 1/2 + 1/2 - 1| > 1/1000 := by
      have e : (1/2 : ℚ) + 1/2 + 1/2 - 1 = 1/2 := by norm_num
      rw [e, abs_of_nonneg (by norm_num : (0:ℚ) ≤ 1/2)]
      norm_num
    rw [if_neg (by norm_num), if_neg (by norm_num), if_neg (by norm_num), if_pos c4]

/-- Witness for `ratio_validation_rejects`: train ratio 2 is out of range. -/
theorem ratio_validation_rejects_witness :
    split_train_val_test 0 [0] (2 : ℚ) (1/2) (1/2) 7 =
      Except.error GetlistError.invalidRatio ∧
    split_train_val_test 0 [0] (1/2 : ℚ) (1/2) (1/2) 7 =
      Except.error GetlistError.invalidRatio :=
  ratio_validation_rejects 0 [0] 2 (1/2) (1/2) 7 (Or.inl (by norm_num))

/-- **C3.**  The partition is deterministic: the incoming global generator
state is overwritten by `random.seed(seed)` (seed 42 in `main`), so two runs
with identical pair lists and ratios — whatever generator states they start
from — produce identical train/val/test assignments and byte-identical
manifests. -/
theorem partition_deterministic (g1 g2 : RngState)
    (imgListing fileNames txtFiles : List String) (tr vr te : ℚ) :
    (∀ (pairs : List (String × String)) (seed : Nat),
        split_train_val_test g1 pairs tr vr te seed =
        split_train_val_test g2 pairs tr vr te seed) ∧
    getlistMain g1 imgListing fileNames txtFiles tr vr te =
      getlistMain g2 imgListing fileNames txtFiles tr vr te :=
  ⟨fun _ _ => rfl, rfl⟩

/-- **C2.**  When `split_train_val_test` succeeds, the concatenation of the
returned train, val and test slices is exactly the shuffled input sequence;
hence the three splits form a permutation (equal multiset) of the input pair
list, and — when the input has no duplicates — they are pairwise disjoint and
duplicate-free. -/
theorem split_partition_complete {α : Type} (g : RngState) (pairs : List α)
    (tr vr te : ℚ) (seed : Nat) (t v s : List α)
    (h : split_train_val_test g pairs tr vr te seed = Except.ok (t, v, s)) :
    t ++ v ++ s = (pyShuffle pairs (pySeed seed)).1 ∧
    List.Perm (t ++ v ++ s) pairs ∧
    (pairs.Nodup → t.Nodup ∧ v.Nodup ∧ s.Nodup ∧
      t.Disjoint v ∧ t.Disjoint s ∧ v.Disjoint s) := by
  simp only [split_train_val_test] at h
  split at h
  · exact absurd h (by simp)
  split at h
  · exact absurd h (by simp)
  split at h
  · exact absurd h (by simp)
  split at h
  · exact absurd h (by simp)
  split at h
  · exact absurd h (by simp)
  next tc vc c heq =>
    simp only [Except.ok.injEq, Prod.mk.injEq] at h
    obtain ⟨h1, h2, h3⟩ := h
    obtain ⟨htc, hvc, _⟩ := splitCounts_ok_inv heq
    have htoNat : (tc + vc).toNat = tc.toNat + vc.toNat :=
      Int.toNat_add (by omega) (by omega)
    have hL : t ++ v ++ s = (pyShuffle pairs (pySeed seed)).1 := by
      rw [← h1, ← h2, ← h3, htoNat]
      rw [List.append_assoc, List.drop_take_append_drop, List.take_append_drop]
    refine ⟨hL, ?_, ?_⟩
    · rw [hL]
      exact pyShuffle_perm pairs (pySeed seed)
    · intro hnd
      have hnd2 : (t ++ v ++ s).Nodup := by
        rw [hL]
        exact ((pyShuffle_perm pairs (pySeed seed)).nodup_iff).mpr hnd
      obtain ⟨hndtv, hnds, hdisj⟩ := List.nodup_append.mp hnd2
      obtain ⟨hndt, hndv, hdv⟩ := List.nodup_append.mp hndtv
      obtain ⟨hts, hvs⟩ := List.disjoint_append_left.mp hdisj
      exact ⟨hndt, hndv, hnds, hdv, hts, hvs⟩

/-- Witness for `split_partition_complete`: three pairs, ratios
`(0.5, 0.25, 0.25)`, seed 42. -/
theorem split_partition_complete_witness :
    [0] ++ [1] ++ [2] = (pyShuffle [0, 1, 2] (pySeed 42)).1 ∧
    List.Perm ([0] ++ [1] ++ [2]) [0, 1, 2] ∧
    (([0, 1, 2] : List Nat).Nodup → ([0] : List Nat).Nodup ∧ ([1] : List Nat).Nodup ∧
      ([2] : List Nat).Nodup ∧ ([0] : List Nat).Disjoint [1] ∧
      ([0] : List Nat).Disjoint [2] ∧ ([1] : List Nat).Disjoint [2]) :=
  split_partition_complete 0 [0, 1, 2] (1/2) (1/4) (1/4) 42 [0] [1] [2] (by
    rw [split_train_val_test_valid 0 [0, 1, 2] (1/2) (1/4) (1/4) 42
      (by norm_num) (by norm_num) (by norm_num) (by
        rw [show (1/2 : ℚ) + 1/4 + 1/4 - 1 = 0 from by norm_num, abs_zero]
        norm_num)]
    have hl : (((pyShuffle [0, 1, 2] (pySeed 42)).1.length : ℕ) : ℤ) = 3 := by
      rw [pyShuffle_length]
      rfl
    rw [hl, splitCounts_three_samples]
    rfl)


/-- **C8** (2-way split, modelled from the spec).  With 10 pairs, train ratio
0.8 and seed 42, exactly 8 pairs go to train and 2 to the second split, and
together the two splits are a duplicate-free permutation of the input — every
stem appears exactly once across the combined manifests. -/
theorem two_way_split {α : Type} (g : RngState) (pairs : List α)
    (h10 : pairs.length = 10) (hnd : pairs.Nodup) :
    (splitTwoWay g pairs (8/10 : ℚ) 42).1.length = 8 ∧
    (splitTwoWay g pairs (8/10 : ℚ) 42).2.length = 2 ∧
    List.Perm ((splitTwoWay g pairs (8/10 : ℚ) 42).1 ++ (splitTwoWay g pairs (8/10 : ℚ) 42).2)
      pairs ∧
    ((splitTwoWay g pairs (8/10 : ℚ) 42).1 ++ (splitTwoWay g pairs (8/10 : ℚ) 42).2).Nodup := by
  have hlen : (pyShuffle pairs (pySeed 42)).1.length = 10 := by
    rw [pyShuffle_length, h10]
  have hcast : (((pyShuffle pairs (pySeed 42)).1.length : ℕ) : ℤ) = 10 := by
    rw [hlen]
    rfl
  have hfl : ⌊((10 : ℤ) : ℚ) * (8/10)⌋ = 8 := by norm_num
  have hcount : max 1 (min ⌊(((pyShuffle pairs (pySeed 42)).1.length : ℕ) : ℤ) * ((8:ℚ)/10)⌋
      ((((pyShuffle pairs (pySeed 42)).1.length : ℕ) : ℤ) - 1)) = 8 := by
    rw [hcast]  -- note: rewrites the cast inside the floor as well
    rw [hfl, min_eq_left (by norm_num : (8:ℤ) ≤ 10 - 1),
      max_eq_right (by norm_num : (1:ℤ) ≤ 8)]
  simp only [splitTwoWay]
  rw [hcount]
  have happ : (pyShuffle pairs (pySeed 42)).1.take (Int.toNat 8) ++
      (pyShuffle pairs (pySeed 42)).1.drop (Int.toNat 8) = (pyShuffle pairs (pySeed 42)).1 :=
    List.take_append_drop _ _
  have hperm : List.Perm ((pyShuffle pairs (pySeed 42)).1.take (Int.toNat 8) ++
      (pyShuffle pairs (pySeed 42)).1.drop (Int.toNat 8)) pairs := by
    rw [happ]
    exact pyShuffle_perm pairs (pySeed 42)
  refine ⟨?_, ?_, hperm, ?_⟩
  · rw [List.length_take, hlen]
    rfl
  · rw [List.length_drop, hlen]
    rfl
  · rw [happ]
    exact ((pyShuffle_perm pairs (pySeed 42)).nodup_iff).mpr hnd

/-- Witness for `two_way_split`: the pairs `0..9`. -/
theorem two_way_split_witness :
    (splitTwoWay 0 [0,1,2,3,4,5,6,7,8,9] (8/10 : ℚ) 42).1.length = 8 ∧
    (splitTwoWay 0 [0,1,2,3,4,5,6,7,8,9] (8/10 : ℚ) 42).2.length = 2 ∧
    List.Perm ((splitTwoWay 0 [0,1,2,3,4,5,6,7,8,9] (8/10 : ℚ) 42).1 ++
      (splitTwoWay 0 [0,1,2,3,4,5,6,7,8,9] (8/10 : ℚ) 42).2) [0,1,2,3,4,5,6,7,8,9] ∧
    ((splitTwoWay 0 [0,1,2,3,4,5,6,7,8,9] (8/10 : ℚ) 42).1 ++
      (splitTwoWay 0 [0,1,2,3,4,5,6,7,8,9] (8/10 : ℚ) 42).2).Nodup :=
  two_way_split 0 [0,1,2,3,4,5,6,7,8,9] (by rfl) (by decide)

/-! ### Extractor facts -/

theorem extract_eq_specExtract (shapes : List Shape) (filt : Option (List String)) :
    extract_target_points shapes filt = specExtract shapes filt := by
  simp only [specExtract, List.filterMap_filter, extract_target_points]
  congr 1
  funext sh
  cases filt with
  | none =>
    by_cases h1 : sh.shape_type = "point" <;>
      simp [h1, labelExcluded]
  | some ls =>
    by_cases h1 : sh.shape_type = "point" <;>
      by_cases h2 : ls.contains sh.label <;>
        simp [h1, h2, labelExcluded]

/-- **C4.**  `extract_target_points` returns exactly the first point of each
`point`-typed shape passing the label filter, in document order, skipping
shapes with an empty `points` list; every output point comes from some
`point`-typed shape whose label is in the filter when one is given; and label
matching is exact and case-sensitive: a shape labeled `"Weed"` is excluded by
the filter `{"weed"}`. -/
theorem extract_contract :
    (∀ (shapes : List Shape) (filt : Option (List String)),
        extract_target_points shapes filt = specExtract shapes filt) ∧
    (∀ (shapes : List Shape) (filt : Option (List String)) (p : ℚ × ℚ),
        p ∈ extract_target_points shapes filt →
        ∃ sh, sh ∈ shapes ∧ sh.shape_type = "point" ∧ sh.points.head? = some p ∧
          ∀ ls, filt = some ls → sh.label ∈ ls) ∧
    extract_target_points [⟨"Weed", "point", [(1, 2)]⟩] (some ["weed"]) = [] := by
  refine ⟨extract_eq_specExtract, ?_, rfl⟩
  intro shapes filt p hp
  rw [extract_eq_specExtract] at hp
  simp only [specExtract, List.mem_filterMap] at hp
  obtain ⟨sh, hmem, hsome⟩ := hp
  rw [List.mem_filter] at hmem
  obtain ⟨hsh, hcond⟩ := hmem
  rw [Bool.and_eq_true] at hcond
  obtain ⟨hty, hpass⟩ := hcond
  refine ⟨sh, hsh, by simpa using hty, hsome, ?_⟩
  intro ls hls
  subst hls
  simpa using hpass

/-- Witness for `extract_contract`: a matching shape labeled `"weed"`. -/
theorem extract_contract_witness :
    ∃ sh, sh ∈ [Shape.mk "weed" "point" [((5 : ℚ), (6 : ℚ))]] ∧ sh.shape_type = "point" ∧
      sh.points.head? = some ((5 : ℚ), (6 : ℚ)) ∧
      ∀ ls, (some ["weed"] : Option (List String)) = some ls → sh.label ∈ ls :=
  extract_contract.2.1 [Shape.mk "weed" "point" [((5 : ℚ), (6 : ℚ))]] (some ["weed"])
    ((5 : ℚ), (6 : ℚ)) (List.Mem.head _)

/-! ### Serialization facts -/

theorem string_foldl_append_shift : ∀ (xs : List String) (a : String),
    xs.foldl (fun r s => r ++ s) a = a ++ xs.foldl (fun r s => r ++ s) ""
  | [], a => by simp
  | x :: xs, a => by
    simp only [List.foldl_cons]
    rw [string_foldl_append_shift xs (a ++ x), string_foldl_append_shift xs ("" ++ x),
      String.empty_append, String.append_assoc]

theorem string_join_cons (x : String) (xs : List String) :
    String.join (x :: xs) = x ++ String.join xs := by
  show (x :: xs).foldl (fun r s => r ++ s) "" = x ++ xs.foldl (fun r s => r ++ s) ""
  rw [List.foldl_cons, String.empty_append, string_foldl_append_shift xs x]

theorem save_to_txt_foldl (l : List (ℚ × ℚ)) : ∀ acc : String,
    l.foldl (fun a c => a ++ coordLine c) acc = acc ++ String.join (l.map coordLine) := by
  induction l with
  | nil => intro acc; simp [String.join]
  | cons c rest ih =>
    intro acc
    simp only [List.foldl_cons, List.map_cons, ih, string_join_cons]
    rw [String.append_assoc]

/-- **C6.**  `save_to_txt` writes one line per coordinate, in input order, as
`"<int(x)> <int(y)>\n"` with integer conversion truncating toward zero:
`(3.9, -3.9)` produces the line `"3 -3"`. -/
theorem save_to_txt_lines :
    (∀ coordinates : List (ℚ × ℚ),
        save_to_txt coordinates = String.join (coordinates.map coordLine)) ∧
    coordLine (39/10, -39/10) = "3 -3\n" ∧
    save_to_txt [(39/10, -39/10)] = "3 -3\n" := by
  have h1 : pyInt (39/10 : ℚ) = 3 := by norm_num [pyInt]
  have h2 : pyInt (-39/10 : ℚ) = -3 := by
    simp only [pyInt]
    rw [if_neg (by norm_num)]
    rw [Int.ceil_eq_iff] <;> norm_num
  have hline : coordLine (39/10, -39/10) = "3 -3\n" := by
    simp only [coordLine, h1, h2]
    rfl
  refine ⟨fun coords => ?_, hline, ?_⟩
  · show coords.foldl (fun a c => a ++ coordLine c) "" = _
    rw [save_to_txt_foldl coords "", String.empty_append]
  · show "" ++ coordLine (39/10, -39/10) = "3 -3\n"
    rw [String.empty_append, hline]

/-! ### Batch error-handling facts -/

/-- **C5** (the code contradicts the claim).  A document failing with
`DocumentNotFound` / `DocumentMalformed` makes `extract_target_points` call
`sys.exit(1)`; the raised `SystemExit` is not an `Exception`, so the
`except Exception` of `process_directory` does not catch it: the batch
ABORTS with no counter incremented and no final tally, instead of continuing
to the next document.  Ordinary exceptions, by contrast, are counted and the
batch continues. -/
theorem batch_aborts_on_malformed :
    process_directory [("a.json", JsonInput.malformed),
        ("b.json", JsonInput.parsed [Shape.mk "w" "point" [(1, 2)]])] none =
      BatchResult.aborted ⟨0, 0, 0⟩ ∧
    (∀ (name : String) (rest : List (String × JsonInput)) (labels : Option (List String))
        (t : BatchTally),
        processGo labels ((name, JsonInput.missing) :: rest) t = BatchResult.aborted t ∧
        processGo labels ((name, JsonInput.malformed) :: rest) t = BatchResult.aborted t) ∧
    process_directory [("a.json", JsonInput.raisesOther),
        ("b.json", JsonInput.parsed [Shape.mk "w" "point" [(1, 2)]])] none =
      BatchResult.finished ⟨1, 0, 1⟩ :=
  ⟨rfl, fun _ _ _ _ => ⟨rfl, rfl⟩, rfl⟩

/-! ### Label-argument parsing facts -/

/-- **C10.**  The `"all"` sentinel is recognized case-insensitively and only
as the sole label argument; alongside other arguments every argument is a
literal label; and a single-label filter `["all"]` (any casing) disables
filtering entirely, so a shape literally labeled `"all"` cannot be selected
on its own. -/
theorem all_sentinel :
    (∀ s : String, pyLower s = "all" → parseTargetLabels [s] = none) ∧
    (∀ (s : String) (l : List String), l ≠ [] →
        parseTargetLabels (s :: l) = some (s :: l)) ∧
    parseTargetLabels ["All"] = none ∧
    parseTargetLabels ["ALL"] = none ∧
    parseTargetLabels ["all", "weed"] = some ["all", "weed"] ∧
    (∀ shapes : List Shape,
        extract_target_points shapes (parseTargetLabels ["all"]) =
        extract_target_points shapes none) ∧
    extract_target_points [Shape.mk "all" "point" [(1, 1)], Shape.mk "x" "point" [(2, 2)]]
        (parseTargetLabels ["all"]) = [(1, 1), (2, 2)] := by
  refine ⟨?_, ?_, rfl, rfl, rfl, fun _ => rfl, rfl⟩
  · intro s hs
    show (if pyLower s = "all" then none else some [s]) = none
    rw [if_pos hs]
  · intro s l hl
    cases l with
    | nil => exact absurd rfl hl
    | cons a as => rfl

/-- Witness for `all_sentinel`: mixed-case sentinel and a two-label list. -/
theorem all_sentinel_witness :
    parseTargetLabels ["aLL"] = none ∧
    parseTargetLabels ["hzbokchoy", "broadleaf_weed"] = some ["hzbokchoy", "broadleaf_weed"] :=
  ⟨all_sentinel.1 "aLL" rfl,
   all_sentinel.2.1 "hzbokchoy" ["broadleaf_weed"] (by simp)⟩

/-! ### Pair-collection ordering facts -/

/-- **C9.**  `collect_pairs` iterates the image directory through
`sorted(...)`, so its output is independent of the order the filesystem
enumerates the directory (it depends only on the set of entries), and the
returned pairs are sorted by image filename. -/
theorem collect_pairs_order_independent :
    (∀ (l1 l2 fileNames txtFiles : List String), List.Perm l1 l2 →
        collect_pairs l1 fileNames txtFiles = collect_pairs l2 fileNames txtFiles) ∧
    (∀ (imgListing fileNames txtFiles : List String) (ps : List (String × String)),
        collect_pairs imgListing fileNames txtFiles = Except.ok ps →
        List.Sorted (fun a b : String × String => a.1 ≤ b.1) ps) := by
  haveI : IsAntisymm String (fun a b : String => a ≤ b) := ⟨fun _ _ => le_antisymm⟩
  constructor
  · intro l1 l2 fileNames txtFiles hperm
    have hs : l1.insertionSort (fun a b => a ≤ b) = l2.insertionSort (fun a b => a ≤ b) :=
      List.eq_of_perm_of_sorted
        ((List.perm_insertionSort _ l1).trans (hperm.trans (List.perm_insertionSort _ l2).symm))
        (List.sorted_insertionSort _ l1) (List.sorted_insertionSort _ l2)
    simp only [collect_pairs, hs]
  · intro imgListing fileNames txtFiles ps h
    simp only [collect_pairs] at h
    split at h
    · exact absurd h (by simp)
    · simp only [Except.ok.injEq] at h
      subst h
      have hf : List.Sorted (fun a b : String => a ≤ b)
          ((imgListing.insertionSort (fun a b => a ≤ b)).filter
            (fun n => is_image_file fileNames n && txtFiles.contains (pathStem n ++ ".txt"))) :=
        (List.sorted_insertionSort _ imgListing).filter _
      exact List.pairwise_map.mpr hf

/-- Witness for `collect_pairs_order_independent`: two listings of the same
directory in different orders. -/
theorem collect_pairs_order_independent_witness :
    collect_pairs ["b.jpg", "a.jpg"] ["a.jpg", "b.jpg"] ["a.txt", "b.txt"] =
      collect_pairs ["a.jpg", "b.jpg"] ["a.jpg", "b.jpg"] ["a.txt", "b.txt"] ∧
    List.Sorted (fun a b : String × String => a.1 ≤ b.1)
      [("a.jpg", "a.txt"), ("b.jpg", "b.txt")] :=
  ⟨collect_pairs_order_independent.1 _ _ _ _ (List.Perm.swap "a.jpg" "b.jpg" []),
   collect_pairs_order_independent.2 ["b.jpg", "a.jpg"] ["a.jpg", "b.jpg"]
     ["a.txt", "b.txt"] _ (by
      have hle : ¬ (("b.jpg" : String) ≤ "a.jpg") := by
        rw [String.le_iff_toList_le]
        decide
      have hsort : (["b.jpg", "a.jpg"].insertionSort (fun a b => a ≤ b)) =
          ["a.jpg", "b.jpg"] := by
        simp only [List.insertionSort, List.orderedInsert]
        rw [if_neg hle]
      simp only [collect_pairs, hsort]
      rfl)⟩
